import Mathlib

/-!
Shallow embedding of the candle-aggregation subgraph
(`src/src/mapping.ts` and `src/SubQuery/src/mappings/mappingHandlers.ts`)
and proofs about it.

Modelling conventions:
* timestamps are UTC seconds since the epoch, `Nat` (the graph-ts mapping
  receives whole seconds and builds `new Date(timestamp * 1000)`; block
  times are modelled at whole-second granularity);
* JavaScript `Date` UTC field reads/writes are modelled arithmetically on
  the seconds value (no leap seconds, exactly as the epoch-based `Date`);
* `BigDecimal` price/volume arithmetic is modelled by `ℚ` (exact decimal
  arithmetic embeds in the rationals);
* the persistence store is a function from entity id to an optional
  entity; `save` writes the entity under its own id;
* graph-ts entity string fields that are still unset right after
  `new Entity(id)` are modelled as `""` (no theorem below depends on
  that value).
-/

namespace CandleTest

/-- `CandleSize` from `src/types` (interval label, timeframe unit, divisor). -/
structure CandleSize where
  interval : String
  timeframe : String
  divisor : Nat
deriving Repr, DecidableEq

/-- The fixed table of eight resolutions (`candleSizes` in `handleSwap`,
`CANDLE_SIZES` in the SubQuery variant). -/
def candleSizes : List CandleSize :=
  [⟨"5m", "minute", 5⟩, ⟨"15m", "minute", 15⟩, ⟨"30m", "minute", 30⟩,
   ⟨"1h", "hour", 1⟩, ⟨"4h", "hour", 4⟩, ⟨"8h", "hour", 8⟩,
   ⟨"12h", "hour", 12⟩, ⟨"1d", "day", 1⟩]

/-- `date.getUTCMinutes()` for a whole-second epoch timestamp. -/
def getUTCMinutes (t : Nat) : Nat := t / 60 % 60

/-- `date.getUTCHours()` for a whole-second epoch timestamp. -/
def getUTCHours (t : Nat) : Nat := t / 3600 % 24

/-- `getInterval` from `mapping.ts` (seconds in, seconds out).  The
`Date` mutations are modelled arithmetically: `setUTCMinutes m` followed
by `setUTCSeconds 0` replaces the minute-and-below part `t % 3600` by
`60 * m`; `setUTCHours h` with minutes and seconds zeroed replaces the
hour-and-below part `t % 86400` by `3600 * h`; the day case zeroes
`t % 86400`. -/
def getInterval (timestamp : Nat) (timeframe : String) (divisor : Nat) : Nat :=
  if timeframe = "minute" then
    let minutes := getUTCMinutes timestamp
    let minutesToPreviousInterval := minutes - minutes % divisor
    timestamp - timestamp % 3600 + 60 * minutesToPreviousInterval
  else if timeframe = "hour" then
    let hours := getUTCHours timestamp
    let hoursToPreviousInterval := hours - hours % divisor
    timestamp - timestamp % 86400 + 3600 * hoursToPreviousInterval
  else if timeframe = "day" then
    timestamp - timestamp % 86400
  else
    0

/-- Width of a resolution's bucket in seconds (spec §8's
`resolutionSeconds`). -/
def resolutionSeconds (s : CandleSize) : Nat :=
  if s.timeframe = "minute" then 60 * s.divisor
  else if s.timeframe = "hour" then 3600 * s.divisor
  else if s.timeframe = "day" then 86400 * s.divisor
  else 0

lemma getInterval_minute (t d : Nat) (hd : d ∣ 60) :
    getInterval t "minute" d = t - t % (60 * d) := by
  have hdef : getInterval t "minute" d
      = t - t % 3600 + 60 * (t / 60 % 60 - t / 60 % 60 % d) := rfl
  have h1 : t % 3600 = t % 60 + 60 * (t / 60 % 60) := by
    have h := Nat.mod_mul (a := 60) (b := 60) (x := t)
    norm_num at h
    exact h
  have h2 : t % (60 * d) = t % 60 + 60 * (t / 60 % d) := Nat.mod_mul
  have h3 : t / 60 % 60 % d = t / 60 % d := Nat.mod_mod_of_dvd _ hd
  have h4 : t / 60 % 60 % d ≤ t / 60 % 60 := Nat.mod_le _ _
  have h5 : t % (60 * d) ≤ t := Nat.mod_le _ _
  have h6 : t % 3600 ≤ t := Nat.mod_le _ _
  rw [hdef]
  omega

lemma getInterval_hour (t d : Nat) (hd : d ∣ 24) :
    getInterval t "hour" d = t - t % (3600 * d) := by
  have hdef : getInterval t "hour" d
      = t - t % 86400 + 3600 * (t / 3600 % 24 - t / 3600 % 24 % d) := rfl
  have h1 : t % 86400 = t % 3600 + 3600 * (t / 3600 % 24) := by
    have h := Nat.mod_mul (a := 3600) (b := 24) (x := t)
    norm_num at h
    exact h
  have h2 : t % (3600 * d) = t % 3600 + 3600 * (t / 3600 % d) := Nat.mod_mul
  have h3 : t / 3600 % 24 % d = t / 3600 % d := Nat.mod_mod_of_dvd _ hd
  have h4 : t / 3600 % 24 % d ≤ t / 3600 % 24 := Nat.mod_le _ _
  have h5 : t % (3600 * d) ≤ t := Nat.mod_le _ _
  have h6 : t % 86400 ≤ t := Nat.mod_le _ _
  rw [hdef]
  omega

lemma getInterval_day (t : Nat) : getInterval t "day" 1 = t - t % 86400 := by
  simp [getInterval]

/-- Floor-to-multiple satisfies the bucket bounds and is idempotent. -/
lemma bucket_props (t R : Nat) (hR : 0 < R) :
    t - t % R ≤ t ∧ t < (t - t % R) + R ∧ (t - t % R) - (t - t % R) % R = t - t % R := by
  have h1 : t % R < R := Nat.mod_lt _ hR
  have h2 : t % R ≤ t := Nat.mod_le _ _
  have h3 : (t - t % R) % R = 0 := by
    have hdiv : t = R * (t / R) + t % R := (Nat.div_add_mod t R).symm
    have : t - t % R = R * (t / R) := by omega
    rw [this]
    exact Nat.mul_mod_right _ _
  omega

/-- C2: for every timestamp and each of the eight fixed resolutions,
`getInterval` returns a bucket start with
`bucketStart t ≤ t < bucketStart t + resolutionSeconds`, and it is
idempotent: `bucketStart (bucketStart t) = bucketStart t`. -/
lemma bucket_correct_of_eq (tf : String) (d t R : Nat) (hR : 0 < R)
    (h : ∀ u, getInterval u tf d = u - u % R) :
    getInterval t tf d ≤ t ∧ t < getInterval t tf d + R ∧
    getInterval (getInterval t tf d) tf d = getInterval t tf d := by
  have hb := bucket_props t R hR
  rw [h t, h (t - t % R)]
  exact ⟨hb.1, hb.2.1, hb.2.2⟩

theorem c2_bucketing_correct (t : Nat) (s : CandleSize) (hs : s ∈ candleSizes) :
    getInterval t s.timeframe s.divisor ≤ t ∧
    t < getInterval t s.timeframe s.divisor + resolutionSeconds s ∧
    getInterval (getInterval t s.timeframe s.divisor) s.timeframe s.divisor
      = getInterval t s.timeframe s.divisor := by
  fin_cases hs
  · exact bucket_correct_of_eq "minute" 5 t 300 (by norm_num)
      (fun u => getInterval_minute u 5 (by norm_num))
  · exact bucket_correct_of_eq "minute" 15 t 900 (by norm_num)
      (fun u => getInterval_minute u 15 (by norm_num))
  · exact bucket_correct_of_eq "minute" 30 t 1800 (by norm_num)
      (fun u => getInterval_minute u 30 (by norm_num))
  · exact bucket_correct_of_eq "hour" 1 t 3600 (by norm_num)
      (fun u => getInterval_hour u 1 (by norm_num))
  · exact bucket_correct_of_eq "hour" 4 t 14400 (by norm_num)
      (fun u => getInterval_hour u 4 (by norm_num))
  · exact bucket_correct_of_eq "hour" 8 t 28800 (by norm_num)
      (fun u => getInterval_hour u 8 (by norm_num))
  · exact bucket_correct_of_eq "hour" 12 t 43200 (by norm_num)
      (fun u => getInterval_hour u 12 (by norm_num))
  · exact bucket_correct_of_eq "day" 1 t 86400 (by norm_num)
      (fun u => getInterval_day u)

/-- The `Candle` entity (`schema.graphql`); prices and volume are
`BigDecimal` in the source, modelled as `ℚ`. -/
structure Candle where
  id : String
  poolId : String
  interval : String
  timestamp : Nat
  base : String
  quote : String
  «open» : ℚ
  high : ℚ
  low : ℚ
  close : ℚ
  volume : ℚ
deriving Repr, DecidableEq

/-- The candle collection of the persistence store: id to entity. -/
def CandleStore := String → Option Candle

/-- `entity.save()`: writes the entity into the store under its own id. -/
def saveCandle (store : CandleStore) (c : Candle) : CandleStore :=
  fun k => if k = c.id then some c else store k

/-- The real-swap candle id `{poolId}-{candleTime}-{quoteDenom}-{interval}`
built in `createCandle`. -/
def mkCandleId (poolId : String) (candleTime : Nat) (quoteDenom interval : String) : String :=
  s!"{poolId}-{candleTime}-{quoteDenom}-{interval}"

/-- The synthetic candle id
`calc-{baseAssetDenom}-{candleTime}-{quoteAssetDenom}-{interval}` built
in `createCandleWithRate`. -/
def mkCalcCandleId (baseAssetDenom : String) (candleTime : Nat)
    (quoteAssetDenom interval : String) : String :=
  s!"calc-{baseAssetDenom}-{candleTime}-{quoteAssetDenom}-{interval}"

/-- The load/create/update/save block shared verbatim by `createCandle`
and `createCandleWithRate` (spec §4.6 `applyTrade`): on a missing candle
create it with `open = high = low = close = rate` and `volume = volume`;
on an existing one raise `high`/lower `low` when the rate exceeds them,
set `close := rate` and add the volume delta. -/
def updateCandle (candleId poolId interval : String) (candleTime : Nat)
    (base quote : String) (rate volume : ℚ) (store : CandleStore) : CandleStore :=
  match store candleId with
  | none =>
      saveCandle store
        { id := candleId, poolId := poolId, interval := interval,
          timestamp := candleTime, base := base, quote := quote,
          «open» := rate, high := rate, low := rate, close := rate,
          volume := volume }
  | some candle =>
      let c1 := if rate > candle.high then { candle with high := rate } else candle
      let c2 := if rate < c1.low then { c1 with low := rate } else c1
      saveCandle store { c2 with close := rate, volume := c2.volume + volume }

/-- `createCandle` (mapping.ts:178-220): build the real-swap candle id
from the event's pool, the bucket start and the pair's quote denom, then
apply the update.  The floating-point `rate`/`volume` derivation from the
swap amounts is taken as a parameter. -/
def createCandle (poolId : String) (blockTime : Nat) (baseDenom quoteDenom : String)
    (size : CandleSize) (rate volume : ℚ) (store : CandleStore) : CandleStore :=
  let candleTime := getInterval blockTime size.timeframe size.divisor
  let candleId := mkCandleId poolId candleTime quoteDenom size.interval
  updateCandle candleId poolId size.interval candleTime baseDenom quoteDenom rate volume store

/-- `createCandleWithRate` (mapping.ts:232-258): synthetic `calc-` scoped
candle update at the given rate and volume. -/
def createCandleWithRate (baseAssetDenom quoteAssetDenom : String) (rate volume : ℚ)
    (blockTime : Nat) (size : CandleSize) (store : CandleStore) : CandleStore :=
  let poolId := s!"calc-{baseAssetDenom}-{quoteAssetDenom}"
  let candleTime := getInterval blockTime size.timeframe size.divisor
  let candleId := mkCalcCandleId baseAssetDenom candleTime quoteAssetDenom size.interval
  updateCandle candleId poolId size.interval candleTime baseAssetDenom quoteAssetDenom
    rate volume store

/-- The pure update step applied to an already-loaded candle (the
`some` branch of `updateCandle`, before saving). -/
def stepCandle (candle : Candle) (rate volume : ℚ) : Candle :=
  let c1 := if rate > candle.high then { candle with high := rate } else candle
  let c2 := if rate < c1.low then { c1 with low := rate } else c1
  { c2 with close := rate, volume := c2.volume + volume }

lemma updateCandle_none {store : CandleStore} {candleId : String}
    (h : store candleId = none) (poolId interval : String) (candleTime : Nat)
    (base quote : String) (rate volume : ℚ) :
    updateCandle candleId poolId interval candleTime base quote rate volume store
      = saveCandle store
        { id := candleId, poolId := poolId, interval := interval,
          timestamp := candleTime, base := base, quote := quote,
          «open» := rate, high := rate, low := rate, close := rate,
          volume := volume } := by
  unfold updateCandle
  rw [h]

lemma updateCandle_some {store : CandleStore} {candleId : String} {c : Candle}
    (h : store candleId = some c) (poolId interval : String) (candleTime : Nat)
    (base quote : String) (rate volume : ℚ) :
    updateCandle candleId poolId interval candleTime base quote rate volume store
      = saveCandle store (stepCandle c rate volume) := by
  unfold updateCandle stepCandle
  rw [h]

@[simp] lemma saveCandle_self (store : CandleStore) (c : Candle) :
    saveCandle store c c.id = some c := by
  simp [saveCandle]

/-- The source's conditional raises of `high`/`low` compute `max`/`min`. -/
lemma stepCandle_eq (c : Candle) (rate volume : ℚ) :
    stepCandle c rate volume =
      { c with high := max c.high rate, low := min c.low rate,
               close := rate, volume := c.volume + volume } := by
  unfold stepCandle
  rcases lt_or_le c.high rate with h1 | h1
  · rw [if_pos h1]
    dsimp only
    rcases lt_or_le rate c.low with h2 | h2
    · rw [if_pos h2, max_eq_right h1.le, min_eq_right h2.le]
    · rw [if_neg (not_lt.mpr h2), max_eq_right h1.le, min_eq_left h2]
  · rw [if_neg (not_lt.mpr h1)]
    dsimp only
    rcases lt_or_le rate c.low with h2 | h2
    · rw [if_pos h2, max_eq_left h1, min_eq_right h2.le]
    · rw [if_neg (not_lt.mpr h2), max_eq_left h1, min_eq_left h2]

lemma stepCandle_id (c : Candle) (rate volume : ℚ) :
    (stepCandle c rate volume).id = c.id := by
  rw [stepCandle_eq]

/-- A sequence of update calls against one fixed candle identity. -/
def applyTrades (candleId poolId interval : String) (candleTime : Nat)
    (base quote : String) (trades : List (ℚ × ℚ)) (store : CandleStore) : CandleStore :=
  trades.foldl
    (fun st p => updateCandle candleId poolId interval candleTime base quote p.1 p.2 st)
    store

/-- Iterating the pure update step over a list of (rate, volume) pairs. -/
def foldSteps (c : Candle) (trades : List (ℚ × ℚ)) : Candle :=
  trades.foldl (fun c p => stepCandle c p.1 p.2) c

lemma foldSteps_id (c : Candle) (l : List (ℚ × ℚ)) : (foldSteps c l).id = c.id := by
  induction l generalizing c with
  | nil => rfl
  | cons p ts ih =>
      simp only [foldSteps] at ih ⊢
      rw [List.foldl_cons, ih, stepCandle_id]

lemma foldSteps_open (c : Candle) (l : List (ℚ × ℚ)) :
    (foldSteps c l).«open» = c.«open» := by
  induction l generalizing c with
  | nil => rfl
  | cons p ts ih =>
      simp only [foldSteps] at ih ⊢
      rw [List.foldl_cons, ih, stepCandle_eq]

lemma foldSteps_high (c : Candle) (l : List (ℚ × ℚ)) :
    (foldSteps c l).high = (l.map Prod.fst).foldl max c.high := by
  induction l generalizing c with
  | nil => rfl
  | cons p ts ih =>
      simp only [foldSteps] at ih ⊢
      rw [List.foldl_cons, List.map_cons, List.foldl_cons, ih, stepCandle_eq]

lemma foldSteps_low (c : Candle) (l : List (ℚ × ℚ)) :
    (foldSteps c l).low = (l.map Prod.fst).foldl min c.low := by
  induction l generalizing c with
  | nil => rfl
  | cons p ts ih =>
      simp only [foldSteps] at ih ⊢
      rw [List.foldl_cons, List.map_cons, List.foldl_cons, ih, stepCandle_eq]

lemma foldSteps_close (c : Candle) (l : List (ℚ × ℚ)) :
    (foldSteps c l).close = (l.map Prod.fst).getLastD c.close := by
  induction l generalizing c with
  | nil => rfl
  | cons p ts ih =>
      simp only [foldSteps] at ih ⊢
      rw [List.foldl_cons, List.map_cons, List.getLastD_cons, ih, stepCandle_eq]

lemma foldSteps_volume (c : Candle) (l : List (ℚ × ℚ)) :
    (foldSteps c l).volume = c.volume + (l.map Prod.snd).sum := by
  induction l generalizing c with
  | nil => simp [foldSteps]
  | cons p ts ih =>
      simp only [foldSteps] at ih ⊢
      rw [List.foldl_cons, List.map_cons, List.sum_cons, ih, stepCandle_eq]
      dsimp only
      ring

lemma le_foldl_max (a : ℚ) (l : List ℚ) : a ≤ l.foldl max a := by
  induction l generalizing a with
  | nil => exact le_refl a
  | cons b ts ih => exact le_trans (le_max_left a b) (ih (max a b))

lemma mem_le_foldl_max (a x : ℚ) (l : List ℚ) (hx : x ∈ l) : x ≤ l.foldl max a := by
  induction l generalizing a with
  | nil => cases hx
  | cons b ts ih =>
      rcases List.mem_cons.mp hx with rfl | hx'
      · exact le_trans (le_max_right a x) (le_foldl_max _ ts)
      · exact ih _ hx'

lemma foldl_min_le (a : ℚ) (l : List ℚ) : l.foldl min a ≤ a := by
  induction l generalizing a with
  | nil => exact le_refl a
  | cons b ts ih => exact le_trans (ih (min a b)) (min_le_left a b)

lemma foldl_min_le_mem (a x : ℚ) (l : List ℚ) (hx : x ∈ l) : l.foldl min a ≤ x := by
  induction l generalizing a with
  | nil => cases hx
  | cons b ts ih =>
      rcases List.mem_cons.mp hx with rfl | hx'
      · exact le_trans (foldl_min_le _ ts) (min_le_right a x)
      · exact ih _ hx'

/-- While a candle with the identity's id is in the store, each update
loads it, applies the pure step and saves it back under the same id. -/
lemma applyTrades_loaded (candleId poolId interval : String) (candleTime : Nat)
    (base quote : String) (trades : List (ℚ × ℚ)) (c : Candle)
    (hid : c.id = candleId) (store : CandleStore) (h : store candleId = some c) :
    applyTrades candleId poolId interval candleTime base quote trades store candleId
      = some (foldSteps c trades) := by
  induction trades generalizing c store with
  | nil => exact h ▸ rfl
  | cons p ts ih =>
      rw [applyTrades, List.foldl_cons,
        updateCandle_some h poolId interval candleTime base quote p.1 p.2]
      have hid' : (stepCandle c p.1 p.2).id = candleId := by rw [stepCandle_id, hid]
      have hsave : saveCandle store (stepCandle c p.1 p.2) candleId
          = some (stepCandle c p.1 p.2) := by
        rw [← hid']
        exact saveCandle_self store _
      exact ih (stepCandle c p.1 p.2) hid' _ hsave

/-- C1: starting from a store with no candle at the identity, a
non-empty sequence of update calls leaves a candle whose `high`/`low`
are the max/min of all applied rates, whose `close` is the last applied
rate, whose `open` is the first applied rate, whose `volume` is the
exact sum of all volume deltas, with `low ≤ open, close ≤ high`; a
single call gives `open = high = low = close = rate`. -/
theorem c1_candle_invariants (candleId poolId interval : String) (candleTime : Nat)
    (base quote : String) (first : ℚ × ℚ) (rest : List (ℚ × ℚ)) (store : CandleStore)
    (h0 : store candleId = none) :
    ∃ c : Candle,
      applyTrades candleId poolId interval candleTime base quote (first :: rest) store candleId
        = some c ∧
      c.low ≤ c.«open» ∧ c.low ≤ c.close ∧ c.«open» ≤ c.high ∧ c.close ≤ c.high ∧
      c.high = (rest.map Prod.fst).foldl max first.1 ∧
      c.low = (rest.map Prod.fst).foldl min first.1 ∧
      c.close = (rest.map Prod.fst).getLastD first.1 ∧
      c.«open» = first.1 ∧
      c.volume = ((first :: rest).map Prod.snd).sum ∧
      (rest = [] → c.«open» = first.1 ∧ c.high = first.1 ∧ c.low = first.1 ∧
        c.close = first.1) := by
  set c0 : Candle :=
    { id := candleId, poolId := poolId, interval := interval,
      timestamp := candleTime, base := base, quote := quote,
      «open» := first.1, high := first.1, low := first.1, close := first.1,
      volume := first.2 } with hc0
  have hstep1 : updateCandle candleId poolId interval candleTime base quote
      first.1 first.2 store = saveCandle store c0 :=
    updateCandle_none h0 poolId interval candleTime base quote first.1 first.2
  have hload : saveCandle store c0 candleId = some c0 := saveCandle_self store c0
  refine ⟨foldSteps c0 rest, ?_, ?_, ?_, ?_, ?_, ?_, ?_, ?_, ?_, ?_, ?_⟩
  · rw [applyTrades, List.foldl_cons, hstep1]
    exact applyTrades_loaded candleId poolId interval candleTime base quote rest c0 rfl
      (saveCandle store c0) hload
  · rw [foldSteps_low, foldSteps_open]
    exact foldl_min_le _ _
  · rw [foldSteps_low, foldSteps_close]
    rcases List.mem_cons.mp (List.getLastD_mem_cons (rest.map Prod.fst) first.1) with
      heq | hmem
    · rw [heq]
      exact foldl_min_le _ _
    · exact foldl_min_le_mem _ _ _ hmem
  · rw [foldSteps_high, foldSteps_open]
    exact le_foldl_max _ _
  · rw [foldSteps_high, foldSteps_close]
    rcases List.mem_cons.mp (List.getLastD_mem_cons (rest.map Prod.fst) first.1) with
      heq | hmem
    · rw [heq]
      exact le_foldl_max _ _
    · exact mem_le_foldl_max _ _ _ hmem
  · rw [foldSteps_high]
  · rw [foldSteps_low]
  · rw [foldSteps_close]
  · rw [foldSteps_open]
  · rw [foldSteps_volume]
    simp
  · rintro rfl
    refine ⟨foldSteps_open _ _, ?_, ?_, ?_⟩ <;> simp [foldSteps]

/-- Witness for C1: two trades against a fresh identity; the
hypothesis (empty store) is discharged at a concrete input. -/
theorem c1_candle_invariants_witness :
    ((fun _ => none : CandleStore) "1-0-uosmo-5m" = none) ∧
    ∃ c : Candle,
      applyTrades "1-0-uosmo-5m" "1" "5m" 0 "uatom" "uosmo" [(2, 3), (1, 4)]
        (fun _ => none) "1-0-uosmo-5m" = some c ∧
      c.low ≤ c.«open» ∧ c.low ≤ c.close ∧ c.«open» ≤ c.high ∧ c.close ≤ c.high ∧
      c.high = ([(1, 4)].map (Prod.fst (α := ℚ) (β := ℚ))).foldl max 2 ∧
      c.low = ([(1, 4)].map (Prod.fst (α := ℚ) (β := ℚ))).foldl min 2 ∧
      c.close = ([(1, 4)].map (Prod.fst (α := ℚ) (β := ℚ))).getLastD 2 ∧
      c.«open» = 2 ∧
      c.volume = ([((2 : ℚ), (3 : ℚ)), (1, 4)].map Prod.snd).sum ∧
      ([((1 : ℚ), (4 : ℚ))] = [] → c.«open» = 2 ∧ c.high = 2 ∧ c.low = 2 ∧ c.close = 2) :=
  ⟨rfl, c1_candle_invariants "1-0-uosmo-5m" "1" "5m" 0 "uatom" "uosmo" (2, 3) [(1, 4)]
    (fun _ => none) rfl⟩

/-- Witness for C2 at `t = 85653` (23:47:33 UTC) and the 4-hour
resolution: the bucket start is 72000 (20:00:00 UTC). -/
theorem c2_bucketing_correct_witness :
    (⟨"4h", "hour", 4⟩ : CandleSize) ∈ candleSizes ∧
    (getInterval 85653 "hour" 4 ≤ 85653 ∧
     85653 < getInterval 85653 "hour" 4 + resolutionSeconds ⟨"4h", "hour", 4⟩ ∧
     getInterval (getInterval 85653 "hour" 4) "hour" 4 = getInterval 85653 "hour" 4) ∧
    getInterval 85653 "hour" 4 = 72000 :=
  ⟨by decide, c2_bucketing_correct 85653 ⟨"4h", "hour", 4⟩ (by decide), by decide⟩

/-- A candle's stored fields agree with the components its id string was
built from: either a real-swap id built from its own poolId, timestamp,
quote and interval, or a `calc-` id built from its base, timestamp,
quote and interval. -/
def idConsistent (c : Candle) : Prop :=
  c.id = mkCandleId c.poolId c.timestamp c.quote c.interval ∨
  c.id = mkCalcCandleId c.base c.timestamp c.quote c.interval

instance (c : Candle) : Decidable (idConsistent c) := by
  unfold idConsistent
  infer_instance

/-- Every candle in the store has fields consistent with its id. -/
def storeConsistent (store : CandleStore) : Prop :=
  ∀ k c, store k = some c → idConsistent c

lemma stepCandle_preserves (c : Candle) (rate volume : ℚ) :
    (stepCandle c rate volume).id = c.id ∧
    (stepCandle c rate volume).poolId = c.poolId ∧
    (stepCandle c rate volume).timestamp = c.timestamp ∧
    (stepCandle c rate volume).base = c.base ∧
    (stepCandle c rate volume).quote = c.quote ∧
    (stepCandle c rate volume).interval = c.interval := by
  rw [stepCandle_eq]
  exact ⟨rfl, rfl, rfl, rfl, rfl, rfl⟩

lemma saveCandle_cases {store : CandleStore} {c0 c : Candle} {k : String}
    (h : saveCandle store c0 k = some c) : c = c0 ∨ store k = some c := by
  unfold saveCandle at h
  split at h
  · exact Or.inl (Option.some.inj h).symm
  · exact Or.inr h

lemma updateCandle_consistent (store : CandleStore) (hs : storeConsistent store)
    (candleId poolId interval : String) (candleTime : Nat) (base quote : String)
    (rate volume : ℚ)
    (hinit : candleId = mkCandleId poolId candleTime quote interval ∨
             candleId = mkCalcCandleId base candleTime quote interval) :
    storeConsistent
      (updateCandle candleId poolId interval candleTime base quote rate volume store) := by
  intro k c hk
  cases hload : store candleId with
  | none =>
      rw [updateCandle_none hload poolId interval candleTime base quote rate volume] at hk
      rcases saveCandle_cases hk with rfl | hstore
      · exact hinit
      · exact hs k c hstore
  | some c0 =>
      rw [updateCandle_some hload poolId interval candleTime base quote rate volume] at hk
      rcases saveCandle_cases hk with rfl | hstore
      · have hp := stepCandle_preserves c0 rate volume
        have hc0 := hs candleId c0 hload
        unfold idConsistent at hc0 ⊢
        rw [hp.1, hp.2.1, hp.2.2.1, hp.2.2.2.1, hp.2.2.2.2.1, hp.2.2.2.2.2]
        exact hc0
      · exact hs k c hstore

/-- C9: id-field consistency is an invariant of the store: if every
persisted candle's timestamp/quote/interval/poolId-or-base agree with
the components its id was built from, then this still holds after any
`createCandle` call and after any `createCandleWithRate` call, whether
they create a new candle or update an existing one. -/
theorem c9_id_field_consistency (store : CandleStore) (hs : storeConsistent store)
    (poolId baseDenom quoteDenom : String) (blockTime : Nat)
    (size : CandleSize) (rate volume : ℚ) :
    storeConsistent (createCandle poolId blockTime baseDenom quoteDenom size rate volume store) ∧
    storeConsistent (createCandleWithRate baseDenom quoteDenom rate volume blockTime size store) := by
  constructor
  · exact updateCandle_consistent store hs _ _ _ _ _ _ _ _ (Or.inl rfl)
  · exact updateCandle_consistent store hs _ _ _ _ _ _ _ _ (Or.inr rfl)

/-- Witness for C9: the empty store is consistent, and stays so through
one real-candle update and one synthetic update. -/
theorem c9_id_field_consistency_witness :
    storeConsistent (fun _ => none) ∧
    (storeConsistent (createCandle "1" 301 "uatom" "uosmo" ⟨"5m", "minute", 5⟩ 2 3
        (fun _ => none)) ∧
     storeConsistent (createCandleWithRate "uatom" "uosmo" 2 3 301 ⟨"5m", "minute", 5⟩
        (fun _ => none))) :=
  ⟨fun _ c h => absurd h (by simp),
   c9_id_field_consistency (fun _ => none) (fun _ c h => absurd h (by simp))
     "1" "uatom" "uosmo" 301 ⟨"5m", "minute", 5⟩ 2 3⟩

/-- `ch >= "0" && ch <= "9"` from `extractNumberFromString`. -/
def jsIsDigit (c : Char) : Bool := decide ('0' ≤ c) && decide (c ≤ '9')

/-- The accumulation loop of `extractNumberFromString`: append digit
characters; at the first non-digit after at least one digit, stop;
non-digits before any digit are skipped (the `else if` guard
`extractedNumber !== ""`). -/
def scanDigits (chars acc : List Char) : List Char :=
  match chars with
  | [] => acc
  | ch :: rest =>
      if jsIsDigit ch then scanDigits rest (acc ++ [ch])
      else if acc ≠ [] then acc
      else scanDigits rest acc

/-- Decimal value of a digit string (the mathematical value
`I64.parseInt` accumulates). -/
def parseDigits (s : List Char) : Nat :=
  s.foldl (fun n c => n * 10 + (c.toNat - '0'.toNat)) 0

/-- AssemblyScript `i64` two's-complement interpretation of an
accumulated natural value: the parse loop wraps modulo `2^64` and the
result is read back signed. -/
def i64ofNat (n : Nat) : Int :=
  let m : Nat := n % 2 ^ 64
  if m < 2 ^ 63 then (m : Int) else (m : Int) - 2 ^ 64

/-- `extractNumberFromString` (mapping.ts:425-445): scan the digit run,
parse it as a 64-bit integer and re-render it in decimal; `"0"` when no
digit was found.  (`isNaN` on an AssemblyScript `i64` is always
`false`, so the `"0"`-on-NaN branch never fires.) -/
def extractNumberFromString (input : String) : String :=
  let extractedNumber := scanDigits input.toList []
  if extractedNumber ≠ [] then
    toString (i64ofNat (parseDigits extractedNumber))
  else "0"

/-- JavaScript `data.includes(pat)`. -/
def jsIncludes (data pat : String) : Bool :=
  (List.range (data.length + 1)).any (fun i => pat.toList.isPrefixOf (data.toList.drop i))

/-- JavaScript `data.substring(start, stop)` for `start ≤ stop ≤ length`
(the `Nat` subtraction in the caller already clamps a negative start
to 0, as `substring` does). -/
def jsSubstring (data : String) (start stop : Nat) : String :=
  String.mk ((data.toList.drop start).take (stop - start))

/-- `getDenom` (mapping.ts:385-389): classify the denom length by
content and take that many trailing characters. -/
def getDenom (data : String) : String :=
  let tokenDenomLength : Nat :=
    if jsIncludes data "ibc" then 68 else if jsIncludes data "uion" then 4 else 5
  jsSubstring data (data.length - tokenDenomLength) data.length

/-- The static `DENOM_NAME_MAPPING` table (`./denoms`, an external
collaborator per the spec): denom to (name, symbol), `none` for unknown
denoms. -/
def Registry := String → Option (String × String)

/-- `getName`: registry name, or the denom itself when unknown. -/
def getName (reg : Registry) (denom : String) : String :=
  match reg denom with
  | some entry => entry.1
  | none => denom

/-- `getSymbol`: registry symbol, or the denom itself when unknown. -/
def getSymbol (reg : Registry) (denom : String) : String :=
  match reg denom with
  | some entry => entry.2
  | none => denom

/-- The `Token` entity (name, denom, symbol; decimals/priceUSD are not
read by the modelled paths). -/
structure Token where
  id : String
  name : String
  denom : String
  symbol : String
deriving Repr, DecidableEq

def TokenStore := String → Option Token

def saveToken (store : TokenStore) (t : Token) : TokenStore :=
  fun k => if k = t.id then some t else store k

/-- `createToken` (mapping.ts:296-308): load-or-create, then on *every*
call assign `name := getName(token.denom)` (reading the field before
`denom` is re-assigned), `denom := denom`, `symbol := getSymbol(token.denom)`
(reading it after), and save. -/
def createToken (reg : Registry) (tokensSwappedData : String) (store : TokenStore) :
    Token × TokenStore :=
  let denom := getDenom tokensSwappedData
  let token0 :=
    match store denom with
    | some t => t
    | none => { id := denom, name := "", denom := "", symbol := "" }
  let token1 := { token0 with name := getName reg token0.denom }
  let token2 := { token1 with denom := denom }
  let token3 := { token2 with symbol := getSymbol reg token2.denom }
  (token3, saveToken store token3)

/-- `createToken` from the SubQuery variant (mappingHandlers.ts:352-366):
an existing token is returned untouched and *not* saved; only a missing
token is created (with registry name/symbol) and saved. -/
def subqueryCreateToken (reg : Registry) (tokensSwappedData : String) (store : TokenStore) :
    Token × TokenStore :=
  let denom := getDenom tokensSwappedData
  match store denom with
  | some t => (t, store)
  | none =>
      let t : Token :=
        { id := denom, name := getName reg denom, denom := denom,
          symbol := getSymbol reg denom }
      (t, saveToken store t)

/-- The `Pair` entity.  `poolId` is optional: the reverse pair created
by mapping.ts never assigns it. -/
structure Pair where
  id : String
  symbol : String
  baseAsset : String
  quoteAsset : String
  name : String
  poolId : Option String
deriving Repr, DecidableEq

def PairStore := String → Option Pair

def savePair (store : PairStore) (p : Pair) : PairStore :=
  fun k => if k = p.id then some p else store k

/-- `Pair.load(id)` followed by `new Pair(id)` when absent. -/
def loadOrNewPair (store : PairStore) (pid : String) : Pair :=
  match store pid with
  | some p => p
  | none => { id := pid, symbol := "", baseAsset := "", quoteAsset := "",
              name := "", poolId := none }

/-- `createPair` (mapping.ts:318-343): load-or-create the forward pair
`{base.denom}-{quote.denom}-{poolId}` and overwrite its fields; then
load-or-create the reverse pair `{quote.denom}-{base.denom}` (no poolId
in the key) and overwrite its fields (the reverse pair's `poolId` is
never assigned); both are saved unconditionally. -/
def createPair (base quote : Token) (poolId : String) (store : PairStore) :
    Pair × PairStore :=
  let fwdId := s!"{base.denom}-{quote.denom}-{poolId}"
  let pair := { loadOrNewPair store fwdId with
    symbol := s!"{base.symbol}-{quote.symbol}",
    baseAsset := base.denom,
    quoteAsset := quote.denom,
    name := s!"{base.name} - {quote.name}",
    poolId := some poolId }
  let store1 := savePair store pair
  let revId := s!"{quote.denom}-{base.denom}"
  let reversePair := { loadOrNewPair store1 revId with
    symbol := s!"{quote.symbol}-{base.symbol}",
    baseAsset := quote.denom,
    quoteAsset := base.denom,
    name := s!"{quote.name} - {base.name}" }
  (pair, savePair store1 reversePair)

lemma scanDigits_acc (l acc : List Char) (h : acc ≠ []) :
    scanDigits l acc = acc ++ l.takeWhile jsIsDigit := by
  induction l generalizing acc with
  | nil => simp [scanDigits]
  | cons c rest ih =>
      by_cases hc : jsIsDigit c
      · rw [scanDigits, if_pos hc, ih (acc ++ [c]) (by simp), List.takeWhile_cons, if_pos hc]
        simp
      · rw [scanDigits, if_neg hc, if_pos h, List.takeWhile_cons, if_neg hc]
        simp

/-- The accumulation loop returns exactly the first maximal digit run. -/
lemma scanDigits_spec (l : List Char) :
    scanDigits l [] = (l.dropWhile (fun c => !jsIsDigit c)).takeWhile jsIsDigit := by
  induction l with
  | nil => rfl
  | cons c rest ih =>
      by_cases hc : jsIsDigit c
      · rw [scanDigits, if_pos hc]
        simp only [List.nil_append]
        rw [scanDigits_acc rest [c] (by simp), List.dropWhile_cons]
        simp [hc, List.takeWhile_cons]
      · rw [scanDigits, if_neg hc]
        simp only [ne_eq, not_true_eq_false, if_neg, ih, List.dropWhile_cons]
        simp [hc]

/-- C7 (amended): the scanner accumulates the first maximal run of
ASCII digits; when that run is empty the result is `"0"`, and when the
run's value fits the signed 64-bit range the result is its canonical
decimal rendering (so leading zeros are stripped); the spec's three
examples hold. -/
theorem c7_extract_number (input : String) :
    scanDigits input.toList []
      = (input.toList.dropWhile (fun c => !jsIsDigit c)).takeWhile jsIsDigit ∧
    (scanDigits input.toList [] = [] → extractNumberFromString input = "0") ∧
    (scanDigits input.toList [] ≠ [] → parseDigits (scanDigits input.toList []) < 2 ^ 63 →
       extractNumberFromString input = Nat.repr (parseDigits (scanDigits input.toList []))) ∧
    extractNumberFromString "1234uosmo" = "1234" ∧
    extractNumberFromString "uosmo" = "0" ∧
    extractNumberFromString "" = "0" := by
  refine ⟨scanDigits_spec _, ?_, ?_, by decide, by decide, by decide⟩
  · intro h
    rw [extractNumberFromString, h]
    simp
  · intro h hlt
    rw [extractNumberFromString]
    simp only [ne_eq, h, not_false_eq_true, if_pos]
    have hm : parseDigits (scanDigits input.toList []) % 2 ^ 64
        = parseDigits (scanDigits input.toList []) :=
      Nat.mod_eq_of_lt (lt_trans hlt (by norm_num))
    rw [i64ofNat]
    simp only [hm, if_pos hlt]
    rfl

/-- Witness for C7 discharging both hypotheses of the in-range branch
at `"007uosmo"`: the digit run `007` is rendered canonically as `"7"`. -/
theorem c7_extract_number_witness :
    (scanDigits ("007uosmo").toList [] ≠ [] ∧
     parseDigits (scanDigits ("007uosmo").toList []) < 2 ^ 63) ∧
    extractNumberFromString "007uosmo"
      = Nat.repr (parseDigits (scanDigits ("007uosmo").toList [])) :=
  ⟨⟨by decide, by decide⟩, (c7_extract_number "007uosmo").2.2.1 (by decide) (by decide)⟩

/-- C7 counterexample: the claim that the accumulated digit run is
returned *as a string* fails for `"0012uosmo"` — the code parses and
re-renders, stripping the leading zeros. -/
theorem c7_extract_number_counterexample :
    extractNumberFromString "0012uosmo" = "12" ∧
    scanDigits ("0012uosmo").toList [] = ['0', '0', '1', '2'] ∧
    extractNumberFromString "0012uosmo" ≠ "0012" := by
  refine ⟨by decide, by decide, by decide⟩

/-- C8: `getDenom` returns the trailing substring of the classified
length — 68 characters when the input contains `"ibc"`, else 4 when it
contains `"uion"`, else 5 (clamped to the whole string when shorter) —
and `getDenom "1234uosmo" = "uosmo"`. -/
theorem c8_get_denom (data : String) :
    (getDenom data).toList.IsSuffix data.toList ∧
    (getDenom data).length
      = min (if jsIncludes data "ibc" then 68
             else if jsIncludes data "uion" then 4 else 5) data.length ∧
    getDenom "1234uosmo" = "uosmo" := by
  obtain ⟨k, hk⟩ : ∃ k : Nat,
      (if jsIncludes data "ibc" then (68 : Nat)
       else if jsIncludes data "uion" then 4 else 5) = k := ⟨_, rfl⟩
  have hlen : data.toList.length = data.length := rfl
  have hdl : (data.toList.drop (data.length - k)).length
      = data.length - (data.length - k) := by
    rw [List.length_drop, hlen]
  have htake : (data.toList.drop (data.length - k)).take (data.length - (data.length - k))
      = data.toList.drop (data.length - k) :=
    List.take_of_length_le (le_of_eq hdl)
  have hdef : getDenom data = String.mk (data.toList.drop (data.length - k)) := by
    rw [getDenom, jsSubstring, hk, htake]
  refine ⟨?_, ?_, by decide⟩
  · rw [hdef]
    exact List.drop_suffix _ _
  · rw [hdef, hk]
    show (data.toList.drop (data.length - k)).length = min k data.length
    rw [hdl]
    omega

/-- A store is well-formed when every pair sits under its own id (the
persistence layer's `load(id)` returns an entity whose id is `id`). -/
def pairStoreWf (store : PairStore) : Prop :=
  ∀ k p, store k = some p → p.id = k

lemma savePair_wf {store : PairStore} (hwf : pairStoreWf store) (p : Pair) :
    pairStoreWf (savePair store p) := by
  intro k q hq
  unfold savePair at hq
  split at hq
  next h =>
    cases hq
    exact h.symm
  next h => exact hwf k q hq

lemma loadOrNewPair_id {store : PairStore} (hwf : pairStoreWf store) (pid : String) :
    (loadOrNewPair store pid).id = pid := by
  unfold loadOrNewPair
  cases h : store pid with
  | none => rfl
  | some p => exact hwf pid p h

/-- Saving the rewritten reverse pair makes it retrievable under the
reverse key on any well-formed store. -/
lemma save_rev_lookup (store1 : PairStore) (hwf1 : pairStoreWf store1)
    (revId sym bA qA nm : String) :
    savePair store1
      { loadOrNewPair store1 revId with
        symbol := sym, baseAsset := bA, quoteAsset := qA, name := nm } revId
    = some
      { loadOrNewPair store1 revId with
        symbol := sym, baseAsset := bA, quoteAsset := qA, name := nm } := by
  unfold savePair
  dsimp only
  rw [loadOrNewPair_id hwf1 revId]
  simp

/-- C5: after every `createPair base quote poolId` call on a well-formed
store, the reverse pair keyed `{quote.denom}-{base.denom}` (no poolId in
the key) exists with `baseAsset = quote.denom`, `quoteAsset = base.denom`,
and its symbol and name rebuilt from the current tokens — whether or not
a reverse pair already existed. -/
theorem c5_pair_reciprocity (base quote : Token) (poolId : String) (store : PairStore)
    (hwf : pairStoreWf store) :
    ∃ p : Pair,
      (createPair base quote poolId store).2 (s!"{quote.denom}-{base.denom}") = some p ∧
      p.baseAsset = quote.denom ∧
      p.quoteAsset = base.denom ∧
      p.symbol = s!"{quote.symbol}-{base.symbol}" ∧
      p.name = s!"{quote.name} - {base.name}" := by
  unfold createPair
  dsimp only
  exact ⟨_, save_rev_lookup _ (savePair_wf hwf _) _ _ _ _ _, rfl, rfl, rfl, rfl⟩

/-- Witness for C5 on the empty store. -/
theorem c5_pair_reciprocity_witness :
    pairStoreWf (fun _ => none) ∧
    ∃ p : Pair,
      (createPair ⟨"uatom", "Cosmos", "uatom", "ATOM"⟩ ⟨"uosmo", "Osmosis", "uosmo", "OSMO"⟩
          "1" (fun _ => none)).2 "uosmo-uatom" = some p ∧
      p.baseAsset = "uosmo" ∧
      p.quoteAsset = "uatom" ∧
      p.symbol = "OSMO-ATOM" ∧
      p.name = "Osmosis - Cosmos" :=
  ⟨fun _ p h => absurd h (by simp),
   c5_pair_reciprocity ⟨"uatom", "Cosmos", "uatom", "ATOM"⟩
     ⟨"uosmo", "Osmosis", "uosmo", "OSMO"⟩ "1" (fun _ => none)
     (fun _ p h => absurd h (by simp))⟩

/-- C6 (amended): the graph-ts `createToken` re-assigns name and symbol
from the registry lookup and persists on *every* call, refreshing an
already-existing token; the SubQuery variant instead returns an existing
token untouched and performs no save (it assigns name/symbol only at
first creation). -/
theorem c6_token_refresh (reg : Registry) (input : String) (store : TokenStore)
    (t : Token) (hload : store (getDenom input) = some t)
    (hid : t.id = getDenom input) (hdenom : t.denom = getDenom input) :
    ((createToken reg input store).1.name = getName reg (getDenom input) ∧
     (createToken reg input store).1.denom = getDenom input ∧
     (createToken reg input store).1.symbol = getSymbol reg (getDenom input) ∧
     (createToken reg input store).2 (getDenom input)
       = some (createToken reg input store).1) ∧
    subqueryCreateToken reg input store = (t, store) := by
  constructor
  · unfold createToken
    dsimp only
    rw [hload]
    dsimp only
    refine ⟨by rw [hdenom], rfl, rfl, ?_⟩
    unfold saveToken
    dsimp only
    rw [hid]
    simp
  · unfold subqueryCreateToken
    dsimp only
    rw [hload]

/-- Witness for C6: a concrete store holding a stale token under
`"uosmo"`; the graph-ts variant refreshes it, the SubQuery variant
returns it untouched. -/
theorem c6_token_refresh_witness :
    ((fun k => if k = "uosmo" then
        some { id := "uosmo", name := "stale", denom := "uosmo", symbol := "stale" }
      else none : TokenStore) (getDenom "1234uosmo")
        = some { id := "uosmo", name := "stale", denom := "uosmo", symbol := "stale" }) ∧
    (((createToken (fun _ => none) "1234uosmo"
        (fun k => if k = "uosmo" then
          some { id := "uosmo", name := "stale", denom := "uosmo", symbol := "stale" }
        else none)).1.name
          = getName (fun _ => none) (getDenom "1234uosmo") ∧
      (createToken (fun _ => none) "1234uosmo"
        (fun k => if k = "uosmo" then
          some { id := "uosmo", name := "stale", denom := "uosmo", symbol := "stale" }
        else none)).1.denom = getDenom "1234uosmo" ∧
      (createToken (fun _ => none) "1234uosmo"
        (fun k => if k = "uosmo" then
          some { id := "uosmo", name := "stale", denom := "uosmo", symbol := "stale" }
        else none)).1.symbol
          = getSymbol (fun _ => none) (getDenom "1234uosmo") ∧
      (createToken (fun _ => none) "1234uosmo"
        (fun k => if k = "uosmo" then
          some { id := "uosmo", name := "stale", denom := "uosmo", symbol := "stale" }
        else none)).2 (getDenom "1234uosmo")
          = some (createToken (fun _ => none) "1234uosmo"
              (fun k => if k = "uosmo" then
                some { id := "uosmo", name := "stale", denom := "uosmo", symbol := "stale" }
              else none)).1) ∧
     subqueryCreateToken (fun _ => none) "1234uosmo"
        (fun k => if k = "uosmo" then
          some { id := "uosmo", name := "stale", denom := "uosmo", symbol := "stale" }
        else none)
       = ({ id := "uosmo", name := "stale", denom := "uosmo", symbol := "stale" },
          (fun k => if k = "uosmo" then
            some { id := "uosmo", name := "stale", denom := "uosmo", symbol := "stale" }
          else none))) :=
  ⟨by decide,
   c6_token_refresh (fun _ => none) "1234uosmo"
     (fun k => if k = "uosmo" then
       some { id := "uosmo", name := "stale", denom := "uosmo", symbol := "stale" }
     else none)
     { id := "uosmo", name := "stale", denom := "uosmo", symbol := "stale" }
     (by decide) (by decide) (by decide)⟩

/-- C6 counterexample: on the SubQuery variant an already-existing token
is *not* refreshed — its stale name survives and nothing is re-saved, so
the claim that `createToken` re-assigns name/symbol on every call fails. -/
theorem c6_token_refresh_counterexample :
    (subqueryCreateToken (fun _ => none) "1234uosmo"
      (fun k => if k = "uosmo" then
        some { id := "uosmo", name := "stale", denom := "uosmo", symbol := "stale" }
      else none)).1.name
    ≠ getName (fun _ => none) (getDenom "1234uosmo") := by
  decide

/-- One entry of `data.event.attributes`. -/
structure EventAttr where
  key : String
  value : String
deriving Repr, DecidableEq

def USDC_OSMO_POOL : Nat := 678

def USDC_DENOM : String :=
  "ibc/D189335C6E4A68B513C10AB227BF1C1D38C746766278BA3EEB4FB14124F1D858"

/-- JavaScript template-literal stringification of the expression
`data.event.attributes.find((a) => a.key === "pool_id")` as it appears
in `createUSDCCandles` (mappingHandlers.ts:129-133): the source omits
the `.value` access there, so a found attribute object interpolates as
`"[object Object]"` and a missing one as `"undefined"`. -/
def jsFindToString (r : Option EventAttr) : String :=
  match r with
  | some _ => "[object Object]"
  | none => "undefined"

/-- The first oracle-candle key `createUSDCCandles` queries (intended:
the tokenIn-to-OSMO daily candle of the event's pool). -/
def usdcOracleKey1 (attrs : List EventAttr) (dayCandleTime : Nat) : String :=
  let found := jsFindToString (attrs.find? (fun a => a.key == "pool_id"))
  s!"{found}-{dayCandleTime}-uosmo-1d"

/-- The second oracle-candle key `createUSDCCandles` queries: the
OSMO-to-USDC daily candle of pool 678. -/
def usdcOracleKey2 (dayCandleTime : Nat) : String :=
  s!"{USDC_OSMO_POOL}-{dayCandleTime}-uosmo-1d"

/-- The SubQuery `Token` entity, including the mutable `priceUSD`. -/
structure SQToken where
  id : String
  name : String
  denom : String
  symbol : String
  priceUSD : Option String
deriving Repr, DecidableEq

def SQTokenStore := String → Option SQToken

def saveSQToken (store : SQTokenStore) (t : SQToken) : SQTokenStore :=
  fun k => if k = t.id then some t else store k

/-- `createUSDCCandles` (mappingHandlers.ts:113-182): for a non-USDC
traded-in token, load the two daily oracle candles (under the keys the
code actually builds); if either load yields nothing, return with both
stores untouched; otherwise compose the price from the two closes, save
it onto the token, and write the 8 tokenIn-to-USDC plus 8
USDC-to-tokenIn synthetic candles with zero volume.  Block time is
modelled at whole-second granularity. -/
def createUSDCCandles (tokenIn : SQToken) (attrs : List EventAttr) (blockTime : Nat)
    (candleStore : CandleStore) (tokenStore : SQTokenStore) :
    CandleStore × SQTokenStore :=
  let dayCandleTime := getInterval blockTime "day" 1
  if tokenIn.symbol ≠ "USDC" then
    match candleStore (usdcOracleKey1 attrs dayCandleTime) with
    | none => (candleStore, tokenStore)
    | some tokenInOsmoCandle =>
        match candleStore (usdcOracleKey2 dayCandleTime) with
        | none => (candleStore, tokenStore)
        | some osmoUsdcCandle =>
            let tokenInPriceInUsdc := tokenInOsmoCandle.close * osmoUsdcCandle.close
            let tokenIn' := { tokenIn with priceUSD := some (toString tokenInPriceInUsdc) }
            let tokenStore' := saveSQToken tokenStore tokenIn'
            let store1 := candleSizes.foldl
              (fun st size =>
                createCandleWithRate tokenIn.denom USDC_DENOM tokenInPriceInUsdc 0
                  blockTime size st)
              candleStore
            let usdcPriceInTokenIn := 1 / tokenInPriceInUsdc
            let store2 := candleSizes.foldl
              (fun st size =>
                createCandleWithRate USDC_DENOM tokenIn.denom usdcPriceInTokenIn 0
                  blockTime size st)
              store1
            (store2, tokenStore')
  else
    (candleStore, tokenStore)

/-- C10: when the traded-in token's symbol is `"USDC"`, the composer
performs no writes at all — both the candle store and the token store
come back unchanged, and the terminal price 1.0 is never persisted. -/
theorem c10_usdc_token_frame (tokenIn : SQToken) (attrs : List EventAttr)
    (blockTime : Nat) (candleStore : CandleStore) (tokenStore : SQTokenStore)
    (h : tokenIn.symbol = "USDC") :
    createUSDCCandles tokenIn attrs blockTime candleStore tokenStore
      = (candleStore, tokenStore) := by
  unfold createUSDCCandles
  rw [if_neg]
  simp [h]

/-- Witness for C10 on a concrete USDC token and empty stores. -/
theorem c10_usdc_token_frame_witness :
    (SQToken.symbol ⟨USDC_DENOM, "USD Coin", USDC_DENOM, "USDC", none⟩ = "USDC") ∧
    createUSDCCandles ⟨USDC_DENOM, "USD Coin", USDC_DENOM, "USDC", none⟩
        [⟨"pool_id", "678"⟩] 0 (fun _ => none) (fun _ => none)
      = ((fun _ => none), (fun _ => none)) :=
  ⟨rfl, c10_usdc_token_frame ⟨USDC_DENOM, "USD Coin", USDC_DENOM, "USDC", none⟩
    [⟨"pool_id", "678"⟩] 0 (fun _ => none) (fun _ => none) rfl⟩

/-- C4: if either of the two daily oracle-candle loads the composer
performs comes back empty, the whole derivation is a silent no-op:
no synthetic candle is written and no token price is saved — both
stores are returned unchanged. -/
theorem c4_missing_oracle_silent (tokenIn : SQToken) (attrs : List EventAttr)
    (blockTime : Nat) (candleStore : CandleStore) (tokenStore : SQTokenStore)
    (h : candleStore (usdcOracleKey1 attrs (getInterval blockTime "day" 1)) = none ∨
         candleStore (usdcOracleKey2 (getInterval blockTime "day" 1)) = none) :
    createUSDCCandles tokenIn attrs blockTime candleStore tokenStore
      = (candleStore, tokenStore) := by
  unfold createUSDCCandles
  dsimp only
  rcases h with h | h
  · rw [h]
    split <;> rfl
  · cases h1 : candleStore (usdcOracleKey1 attrs (getInterval blockTime "day" 1)) with
    | none => split <;> rfl
    | some c1 =>
        rw [h]
        split <;> rfl

/-- Witness for C4: empty candle store, so the first oracle load is
empty and the composer leaves everything unchanged. -/
theorem c4_missing_oracle_silent_witness :
    ((fun _ => none : CandleStore)
        (usdcOracleKey1 [⟨"pool_id", "1"⟩] (getInterval 0 "day" 1)) = none ∨
     (fun _ => none : CandleStore) (usdcOracleKey2 (getInterval 0 "day" 1)) = none) ∧
    createUSDCCandles ⟨"uatom", "Cosmos", "uatom", "ATOM", none⟩ [⟨"pool_id", "1"⟩] 0
        (fun _ => none) (fun _ => none)
      = ((fun _ => none), (fun _ => none)) :=
  ⟨Or.inl rfl, c4_missing_oracle_silent ⟨"uatom", "Cosmos", "uatom", "ATOM", none⟩
    [⟨"pool_id", "1"⟩] 0 (fun _ => none) (fun _ => none) (Or.inl rfl)⟩

/-- The two daily oracle candles C3 requires, present under the real
candle ids that `createCandle` would have written them to. -/
def c3OracleAtomOsmo : Candle :=
  { id := "1-0-uosmo-1d", poolId := "1", interval := "1d", timestamp := 0,
    base := "uatom", quote := "uosmo", «open» := 10, high := 10, low := 10,
    close := 10, volume := 5 }

def c3OracleOsmoUsdc : Candle :=
  { id := "678-0-uosmo-1d", poolId := "678", interval := "1d", timestamp := 0,
    base := USDC_DENOM, quote := "uosmo", «open» := 2, high := 2, low := 2,
    close := 2, volume := 7 }

def c3Store : CandleStore := fun k =>
  if k = "1-0-uosmo-1d" then some c3OracleAtomOsmo
  else if k = "678-0-uosmo-1d" then some c3OracleOsmoUsdc
  else none

/-- C3 (code bug): with both required daily oracle candles present
under their real ids (`1-0-uosmo-1d` for tokenIn-to-OSMO of the event's
pool, `678-0-uosmo-1d` for OSMO-to-USDC), the composer still writes
nothing: the first load interpolates the found attribute *object*
(not its `.value`) into the key, querying the never-written id
`[object Object]-0-uosmo-1d`, and silently returns both stores
unchanged instead of composing `10 * 2` and writing 16 synthetic
candles. -/
theorem c3_usd_composer_dead_lookup :
    c3Store "1-0-uosmo-1d" = some c3OracleAtomOsmo ∧
    c3Store "678-0-uosmo-1d" = some c3OracleOsmoUsdc ∧
    usdcOracleKey1 [⟨"pool_id", "1"⟩] (getInterval 0 "day" 1)
      = "[object Object]-0-uosmo-1d" ∧
    c3Store (usdcOracleKey1 [⟨"pool_id", "1"⟩] (getInterval 0 "day" 1)) = none ∧
    createUSDCCandles ⟨"uatom", "Cosmos", "uatom", "ATOM", none⟩ [⟨"pool_id", "1"⟩] 0
        c3Store (fun _ => none)
      = (c3Store, (fun _ => none)) :=
  ⟨rfl, rfl, by decide, by decide, rfl⟩

end CandleTest
